import Mathlib

/-!
Shallow embedding of the bounded-concurrency article-processing pipeline
(`src/server.py` and `src/main.py` of `filter_speed_of_light`).

Conventions of the embedding:
* Python dicts for results become the structure `ResultS`; a key that a
  branch does not put into the dict becomes `none` in the corresponding
  `Option` field.
* Exceptions that can reach the `try/except` chain of `process_article`
  are modelled by `Exc`: a record of the instance-of facts the handlers
  test (`asyncio.TimeoutError`, `aiohttp.ClientError`,
  `ArticleNotFound`), plus the message used by `main.py`'s catch-all
  f-string.  All exceptions raised by the stages are subclasses of
  `Exception`, so the final `except Exception` handler is total over
  `Exc`.  Note that `asyncio.TimeoutError` and
  `asyncio.exceptions.TimeoutError` are the same Python class, and that
  an exception may be an instance of several of these classes at once
  (e.g. `aiohttp.ServerTimeoutError` derives from both `ClientError`
  and `TimeoutError`); the record keeps the flags independent.
* The nondeterministic outcome of the I/O and worker stages of one task
  is a `TaskEnv`: wall-clock durations and the value-or-exception each
  stage would produce.  `process_article` is then a pure function of
  the url and its `TaskEnv`.
* `aiohttp.ClientTimeout(total=T)` elapsing and `asyncio.wait_for`
  expiring both raise `asyncio.TimeoutError`; the fetch/wait_for models
  return that exception when the stage duration exceeds its budget.
* `text_tools` and the `adapters` package are external to `src/`; the
  functions taken from them are modelled from the spec (marked below).
-/

/-- Model of a Python exception (a subclass of `Exception`) as the facts
the `except` chains test: instance-of `asyncio.TimeoutError` (the same
class as `asyncio.exceptions.TimeoutError`), instance-of
`aiohttp.ClientError`, instance-of `ArticleNotFound`, and `str(e)`. -/
structure Exc where
  isTimeoutError : Bool
  isClientError : Bool
  isArticleNotFound : Bool
  msg : String
  deriving DecidableEq, Repr

/-- `asyncio.TimeoutError` as raised by `aiohttp` when
`ClientTimeout(total=...)` elapses and by `asyncio.wait_for` on expiry. -/
def asyncioTimeout : Exc :=
  { isTimeoutError := true, isClientError := false,
    isArticleNotFound := false, msg := "" }

/-- The `ValueError` raised by unpacking `score, words_count = ws` in
`main.py` when the awaited list `ws` does not have exactly two
elements (CPython's message depends on the length). -/
def unpackValueError (n : Nat) : Exc :=
  { isTimeoutError := false, isClientError := false,
    isArticleNotFound := false,
    msg := if n < 2 then
        "not enough values to unpack (expected 2, got " ++ toString n ++ ")"
      else "too many values to unpack (expected 2)" }

/-- One JSON result dict.  Keys absent from the dict are `none`. -/
structure ResultS where
  url : String
  status : String
  score : Option ℚ := none
  words_count : Option Nat := none
  duration : Option ℚ := none
  deriving DecidableEq, Repr

/-- A result dict carrying only `url` and `status`, as built by every
`except` handler in both files. -/
def mkErr (url status : String) : ResultS :=
  { url := url, status := status }

/-- `server.py` settings (module constants). -/
def FETCH_TIMEOUT : ℚ := 5
def ANALYZE_TIMEOUT : ℚ := 3
def MAX_URLS : Nat := 10
/-- Initial value of `CONCURRENCY_LIMIT = asyncio.Semaphore(10)`. -/
def CONCURRENCY_CAP : Nat := 10

/-- The `except` chain of `server.py`'s `process_article`
(lines 68-76), applied in source order to the raised exception:
`asyncio.TimeoutError` → TIMEOUT; `(aiohttp.ClientError,
asyncio.exceptions.TimeoutError)` → FETCH_ERROR; `ArticleNotFound` →
PARSING_ERROR; `Exception` → INTERNAL_ERROR. -/
def statusOfServer (e : Exc) : String :=
  if e.isTimeoutError then "TIMEOUT"
  else if e.isClientError || e.isTimeoutError then "FETCH_ERROR"
  else if e.isArticleNotFound then "PARSING_ERROR"
  else "INTERNAL_ERROR"

/-- The `except` chain of `main.py`'s `process_article` (lines 45-52):
`asyncio.TimeoutError` → TIMEOUT; `aiohttp.ClientError` → FETCH_ERROR;
`ArticleNotFound` → PARSING_ERROR; `Exception e` → `f'ERROR: \x7be\x7d'`. -/
def statusOfMain (e : Exc) : String :=
  if e.isTimeoutError then "TIMEOUT"
  else if e.isClientError then "FETCH_ERROR"
  else if e.isArticleNotFound then "PARSING_ERROR"
  else "ERROR: " ++ e.msg

def classifyServer (url : String) (e : Exc) : ResultS :=
  mkErr url (statusOfServer e)

def classifyMain (url : String) (e : Exc) : ResultS :=
  mkErr url (statusOfMain e)

/-- Modelled from the spec: `text_tools.calculate_jaundice_rate`
(external to `src/`): "given word bag + charged-word set, return a
numeric rate ... score in [0,100] = 100 × (count of words present in
charged-word set) / (total word count)"; "empty word bag → score is
defined as 0". -/
def calculate_jaundice_rate (words charged_words : List String) : ℚ :=
  if words.length = 0 then 0
  else 100 * ((words.countP (fun w => charged_words.contains w) : ℚ)
      / (words.length : ℚ))

/-- `server.py`'s `analyze_text_task` run in the worker process, after
the tokenizer: `words = text_tools.split_by_words(morph, text)` is
external to `src/` (modelled from the spec as an opaque tokenizer
producing a bag of normalized words), so the function is embedded over
its output `words`; it returns the pair
`(calculate_jaundice_rate(words, charged_words), len(words))`. -/
def analyze_text_task (charged_words words : List String) : ℚ × Nat :=
  (calculate_jaundice_rate words charged_words, words.length)

/-- Outcome environment for one Article Task: what the external world
(network, sanitizer, worker pool, clock) would do for this url. -/
structure TaskEnv where
  /-- Wall-clock duration the fetch stage would take. -/
  fetchDur : ℚ
  /-- What the fetch returns if it does not time out: the body text, or
  the `aiohttp.ClientError` raised by `session.get`/`raise_for_status`. -/
  net : Except Exc String
  /-- `sanitize(html, plaintext=True)` (external `adapters.inosmi_ru`,
  modelled from the spec: returns plaintext or raises `ArticleNotFound`). -/
  san : String → Except Exc String
  /-- Wall-clock delay between dispatch to the worker and its reply,
  compared by `asyncio.wait_for` against `ANALYZE_TIMEOUT`. -/
  analysisDur : ℚ
  /-- What the worker computes if awaited: the tokenizer's word bag
  `split_by_words(morph, clean_text)`, or an exception raised inside
  the worker. -/
  tokenizerWords : Except Exc (List String)
  /-- `time.perf_counter() - start_analysis`, the measured wall time
  stored (rounded) in the `duration` key by `server.py`. -/
  analysisWall : ℚ

/-- `round(x, 4)` on the measured duration. -/
def round4 (x : ℚ) : ℚ := (round (x * 10000) : ℤ) / 10000

/-- `session.get(url, timeout=ClientTimeout(total=FETCH_TIMEOUT))` plus
`raise_for_status` and body read: raises `asyncio.TimeoutError` when the
fetch takes longer than `FETCH_TIMEOUT`, otherwise returns the body or
the `ClientError` the request produced.  `main.py`'s `fetch` (lines
18-22) performs exactly the same calls with the same timeout. -/
def fetchStage (dur : ℚ) (net : Except Exc String) : Except Exc String :=
  if FETCH_TIMEOUT < dur then .error asyncioTimeout else net

/-- `asyncio.wait_for(fut, timeout)`: raises `asyncio.TimeoutError` when
the awaited work takes longer than `timeout`, else yields its outcome. -/
def wait_for (dur timeout : ℚ) (r : Except Exc α) : Except Exc α :=
  if timeout < dur then .error asyncioTimeout else r

/-- `server.py`'s `process_article` (lines 41-76) as a pure function of
the url and the task's environment.  The semaphore wait only delays the
fetch (it cannot fail), so it does not appear in the data path; it is
modelled by the transition system `ServerStep` below.  Any exception
from a stage falls to the `except` chain `statusOfServer`. -/
def processArticleServer (charged_words : List String) (env : TaskEnv)
    (url : String) : ResultS :=
  match fetchStage env.fetchDur env.net with
  | .error e => classifyServer url e
  | .ok html =>
    match env.san html with
    | .error e => classifyServer url e
    | .ok _clean_text =>
      match wait_for env.analysisDur ANALYZE_TIMEOUT
          ((env.tokenizerWords).map (analyze_text_task charged_words)) with
      | .error e => classifyServer url e
      | .ok (score, words_count) =>
        { url := url, status := "OK", score := some score,
          words_count := some words_count,
          duration := some (round4 env.analysisWall) }

/-- Python chars are length-1 strings; iterating a `str` yields them.
Used to embed `main.py` feeding a single word (a `str`) where
`calculate_jaundice_rate` expects the word bag. -/
def pyChars (s : String) : List String := s.data.map (fun c => String.mk [c])

/-- `main.py`'s `process_article` (lines 24-52).  The executor runs the
bare tokenizer `text_tools.split_by_words`, and its result — a word
list — is unpacked by `score, words_count = await ...`: this succeeds
only for two-element lists (binding the two words), otherwise raises
`ValueError`, which the catch-all turns into an `ERROR: ...` result.
On a successful unpack, `calculate_jaundice_rate(score, charged_words)`
receives the first word (a `str`, iterated char by char), and
`len(words_count) if isinstance(words_count, list) else 0` is `0`
because the second word is a `str`, not a list.  The OK dict has no
`duration` key. -/
def processArticleMain (charged_words : List String) (env : TaskEnv)
    (url : String) : ResultS :=
  match fetchStage env.fetchDur env.net with
  | .error e => classifyMain url e
  | .ok html =>
    match env.san html with
    | .error e => classifyMain url e
    | .ok _clean_text =>
      match wait_for env.analysisDur ANALYZE_TIMEOUT env.tokenizerWords with
      | .error e => classifyMain url e
      | .ok ws =>
        match ws with
        | [w1, _w2] =>
          { url := url, status := "OK",
            score := some (calculate_jaundice_rate (pyChars w1) charged_words),
            words_count := some 0, duration := none }
        | _ => classifyMain url (unpackValueError ws.length)

/-- `asyncio.gather(*tasks)` over the per-url task list built by
`analyze_handler` (server.py lines 89-93) / `main` (main.py line 63):
gather returns the results in task-list order, independent of the order
in which tasks complete, so the batch is the in-order map of
`process_article` over the urls, task `i` running under environment
`envs i`. -/
def runBatchServer (charged_words : List String) (envs : Nat → TaskEnv) :
    Nat → List String → List ResultS
  | _, [] => []
  | i, url :: rest =>
    processArticleServer charged_words (envs i) url ::
      runBatchServer charged_words envs (i + 1) rest

/-- `asyncio.gather(*tasks)` in `main.py`'s `main` (lines 63-64). -/
def runBatchMain (charged_words : List String) (envs : Nat → TaskEnv) :
    Nat → List String → List ResultS
  | _, [] => []
  | i, url :: rest =>
    processArticleMain charged_words (envs i) url ::
      runBatchMain charged_words envs (i + 1) rest

/-- Python's `str.split(',')`: splits on every comma, keeping empty
pieces, so `"".split(',') == [""]`. -/
def splitCommasCh : List Char → List (List Char)
  | [] => [[]]
  | c :: rest =>
    match splitCommasCh rest with
    | [] => [[]]
    | g :: gs => if c = ',' then [] :: g :: gs else (c :: g) :: gs

def pySplitCommas (s : String) : List String :=
  (splitCommasCh s.data).map String.mk

/-- Python's `str.strip()`: removes leading and trailing whitespace. -/
def pyStrip (s : String) : String :=
  String.mk (((s.data.dropWhile Char.isWhitespace).reverse.dropWhile
      Char.isWhitespace).reverse)

/-- `urls = [u.strip() for u in urls_param.split(',') if u.strip()]`
(server.py line 80): a stripped piece is kept when it is truthy, i.e.
non-empty. -/
def parseUrls (urls_param : String) : List String :=
  ((pySplitCommas urls_param).map pyStrip).filter (fun u => u ≠ "")

/-- The two possible HTTP responses of `analyze_handler`. -/
inductive HandlerResponse where
  | clientError (httpStatus : Nat) (errorMsg : String)
  | jsonResults (results : List ResultS)
  deriving DecidableEq, Repr

/-- `server.py`'s `analyze_handler` (lines 78-94): parse the `urls`
query parameter; `400` when no urls survive parsing; `400` when more
than `MAX_URLS` do; otherwise gather one `process_article` per url. -/
def analyze_handler (charged_words : List String) (envs : Nat → TaskEnv)
    (urls_param : String) : HandlerResponse :=
  let urls := parseUrls urls_param
  if urls = [] then .clientError 400 "No URLs provided"
  else if MAX_URLS < urls.length then
    .clientError 400 ("Max " ++ toString MAX_URLS ++ " URLs allowed")
  else .jsonResults (runBatchServer charged_words envs 0 urls)

/-! ### Admission control as a transition system

`server.py` wraps the fetch in `async with CONCURRENCY_LIMIT`, a
`asyncio.Semaphore(10)`: a task acquires a slot before `session.get`
starts and `__aexit__` releases it exactly once when the `async with`
block exits, on success and on exception alike.  `main.py`'s `fetch`
awaits `session.get` with no semaphore at all.  The phase of one
Article Task relative to its fetch: -/

inductive Phase where
  | pending
  | fetching
  | done
  deriving DecidableEq, Repr

def isFetching : Phase → Bool
  | .fetching => true
  | _ => false

/-- Number of tasks currently inside their fetch stage. -/
def countFetching (ts : List Phase) : Nat := ts.countP isFetching

/-- One scheduler step of a `server.py` batch, on (task phases,
free semaphore slots): a pending task may enter `fetching` only by
taking a free slot; a fetching task leaving the `async with` block
(success or exception) returns its slot. -/
inductive ServerStep : List Phase × Nat → List Phase × Nat → Prop
  | acquire (ts : List Phase) (n i : Nat) :
      ts.get? i = some Phase.pending →
      ServerStep (ts, n + 1) (ts.set i Phase.fetching, n)
  | finish (ts : List Phase) (n i : Nat) :
      ts.get? i = some Phase.fetching →
      ServerStep (ts, n) (ts.set i Phase.done, n + 1)

/-- Initial state of a `server.py` batch of `k` urls: every task
pending, all `CONCURRENCY_CAP` slots free. -/
def serverInit (k : Nat) : List Phase × Nat :=
  (List.replicate k Phase.pending, CONCURRENCY_CAP)

/-- One scheduler step of a `main.py` batch: no semaphore exists, so a
pending task may start fetching unconditionally. -/
inductive CliStep : List Phase → List Phase → Prop
  | startFetch (ts : List Phase) (i : Nat) :
      ts.get? i = some Phase.pending →
      CliStep ts (ts.set i Phase.fetching)
  | finish (ts : List Phase) (i : Nat) :
      ts.get? i = some Phase.fetching →
      CliStep ts (ts.set i Phase.done)

/-- Initial state of a `main.py` batch of `k` urls. -/
def cliInit (k : Nat) : List Phase := List.replicate k Phase.pending

/-! ### Helper lemmas -/

theorem processArticleServer_url (charged_words : List String)
    (env : TaskEnv) (url : String) :
    (processArticleServer charged_words env url).url = url := by
  unfold processArticleServer
  repeat' split
  all_goals simp [classifyServer, mkErr]

theorem processArticleMain_url (charged_words : List String)
    (env : TaskEnv) (url : String) :
    (processArticleMain charged_words env url).url = url := by
  unfold processArticleMain
  repeat' split
  all_goals simp [classifyMain, mkErr]

theorem statusOfServer_mem (e : Exc) :
    statusOfServer e ∈
      ["TIMEOUT", "FETCH_ERROR", "PARSING_ERROR", "INTERNAL_ERROR"] := by
  unfold statusOfServer
  repeat' split
  all_goals simp

theorem statusOfMain_mem (e : Exc) :
    statusOfMain e ∈ ["TIMEOUT", "FETCH_ERROR", "PARSING_ERROR"] ∨
      statusOfMain e = "ERROR: " ++ e.msg := by
  unfold statusOfMain
  repeat' split
  all_goals simp

theorem errorPrefix_ne_ok (m : String) : "ERROR: " ++ m ≠ "OK" := by
  intro h
  have hlen := congrArg String.length h
  rw [String.length_append] at hlen
  have h7 : ("ERROR: " : String).length = 7 := rfl
  have h2 : ("OK" : String).length = 2 := rfl
  rw [h7, h2] at hlen
  omega

theorem statusOfServer_ne_ok (e : Exc) : statusOfServer e ≠ "OK" := by
  have h := statusOfServer_mem e
  simp at h
  rcases h with h | h | h | h <;> simp [h]

theorem statusOfMain_ne_ok (e : Exc) : statusOfMain e ≠ "OK" := by
  rcases statusOfMain_mem e with h | h
  · simp at h
    rcases h with h | h | h <;> simp [h]
  · rw [h]; exact errorPrefix_ne_ok e.msg

theorem runBatchServer_length (charged_words : List String)
    (envs : Nat → TaskEnv) (urls : List String) : ∀ k : Nat,
    (runBatchServer charged_words envs k urls).length = urls.length := by
  induction urls with
  | nil => intro k; rfl
  | cons url rest ih => intro k; simp [runBatchServer, ih (k + 1)]

theorem runBatchMain_length (charged_words : List String)
    (envs : Nat → TaskEnv) (urls : List String) : ∀ k : Nat,
    (runBatchMain charged_words envs k urls).length = urls.length := by
  induction urls with
  | nil => intro k; rfl
  | cons url rest ih => intro k; simp [runBatchMain, ih (k + 1)]

theorem runBatchServer_get? (charged_words : List String)
    (envs : Nat → TaskEnv) (urls : List String) : ∀ k i : Nat,
    (runBatchServer charged_words envs k urls).get? i =
      (urls.get? i).map
        (fun u => processArticleServer charged_words (envs (k + i)) u) := by
  induction urls with
  | nil => intro k i; simp [runBatchServer]
  | cons url rest ih =>
    intro k i
    cases i with
    | zero => rfl
    | succ i =>
      rw [show k + (i + 1) = (k + 1) + i from by omega]
      exact ih (k + 1) i

theorem runBatchMain_get? (charged_words : List String)
    (envs : Nat → TaskEnv) (urls : List String) : ∀ k i : Nat,
    (runBatchMain charged_words envs k urls).get? i =
      (urls.get? i).map
        (fun u => processArticleMain charged_words (envs (k + i)) u) := by
  induction urls with
  | nil => intro k i; simp [runBatchMain]
  | cons url rest ih =>
    intro k i
    cases i with
    | zero => rfl
    | succ i =>
      rw [show k + (i + 1) = (k + 1) + i from by omega]
      exact ih (k + 1) i

/-! ### Claims -/

/-- C1: for every batch processed through `analyze_handler`'s
`asyncio.gather` (server.py) or the CLI `main`'s gather (main.py), the
result list has the same length as the url list, and the i-th result's
`url` field is the i-th input url — for every assignment of outcomes to
tasks, hence regardless of which tasks fail or how completions
interleave. -/
theorem batch_one_result_per_url_in_order (charged_words : List String)
    (envsS envsM : Nat → TaskEnv) (urls : List String) :
    (runBatchServer charged_words envsS 0 urls).length = urls.length ∧
    (∀ i : Nat, ((runBatchServer charged_words envsS 0 urls).get? i).map
        ResultS.url = urls.get? i) ∧
    (runBatchMain charged_words envsM 0 urls).length = urls.length ∧
    (∀ i : Nat, ((runBatchMain charged_words envsM 0 urls).get? i).map
        ResultS.url = urls.get? i) := by
  refine ⟨runBatchServer_length _ _ _ 0, fun i => ?_,
    runBatchMain_length _ _ _ 0, fun i => ?_⟩
  · rw [runBatchServer_get?]
    cases urls.get? i <;> simp [processArticleServer_url]
  · rw [runBatchMain_get?]
    cases urls.get? i <;> simp [processArticleMain_url]

/-- A generic unexpected exception: not a timeout, not a `ClientError`,
not `ArticleNotFound` — it reaches the catch-all handler. -/
def boomExc : Exc :=
  { isTimeoutError := false, isClientError := false,
    isArticleNotFound := false, msg := "boom" }

/-- Environment in which the sanitizer raises `boomExc`. -/
def envBoom : TaskEnv :=
  { fetchDur := 1, net := .ok "<html>", san := fun _ => .error boomExc,
    analysisDur := 1, tokenizerWords := .ok [], analysisWall := 0 }

/-- Environment in which every stage succeeds. -/
def sampleEnv : TaskEnv :=
  { fetchDur := 1, net := .ok "<p>x</p>", san := fun s => .ok s,
    analysisDur := 1, tokenizerWords := .ok ["x"], analysisWall := 1 }

/-- Environment whose fetch takes 6 s > `FETCH_TIMEOUT` = 5 s. -/
def envSlowFetch : TaskEnv :=
  { fetchDur := 6, net := .ok "<p>x</p>", san := fun s => .ok s,
    analysisDur := 1, tokenizerWords := .ok ["x"], analysisWall := 1 }

/-- Environment whose worker takes 4 s > `ANALYZE_TIMEOUT` = 3 s. -/
def envSlowAnalysis : TaskEnv :=
  { fetchDur := 1, net := .ok "<p>x</p>", san := fun s => .ok s,
    analysisDur := 4, tokenizerWords := .ok ["x"], analysisWall := 4 }

/-- Environment in which the tokenizer returns a two-word bag, the only
shape `main.py`'s unpacking accepts. -/
def envTwoWords : TaskEnv :=
  { fetchDur := 1, net := .ok "<p>a b</p>", san := fun s => .ok s,
    analysisDur := 1, tokenizerWords := .ok ["a", "b"], analysisWall := 2 }

theorem processArticleServer_cases (charged_words : List String)
    (env : TaskEnv) (url : String) :
    (∃ sc wc, processArticleServer charged_words env url =
      { url := url, status := "OK", score := some sc,
        words_count := some wc,
        duration := some (round4 env.analysisWall) }) ∨
    ∃ e, processArticleServer charged_words env url = classifyServer url e := by
  unfold processArticleServer
  repeat' split
  all_goals first
    | exact .inr ⟨_, rfl⟩
    | exact .inl ⟨_, _, rfl⟩

theorem processArticleMain_cases (charged_words : List String)
    (env : TaskEnv) (url : String) :
    (∃ sc, processArticleMain charged_words env url =
      { url := url, status := "OK", score := some sc,
        words_count := some 0, duration := none }) ∨
    ∃ e, processArticleMain charged_words env url = classifyMain url e := by
  unfold processArticleMain
  repeat' split
  all_goals first
    | exact .inr ⟨_, rfl⟩
    | exact .inl ⟨_, rfl⟩

/-- C2 (amended): `server.py`'s `process_article` always returns exactly
one status, drawn from the closed enumeration OK, TIMEOUT, FETCH_ERROR,
PARSING_ERROR, INTERNAL_ERROR; `main.py`'s `process_article` returns
one status drawn from OK, TIMEOUT, FETCH_ERROR, PARSING_ERROR, or — for
an unexpected failure, where the spec says INTERNAL_ERROR — the open
string `"ERROR: " ++ detail`. -/
theorem status_closed_enumeration (charged_words : List String)
    (env : TaskEnv) (url : String) :
    (processArticleServer charged_words env url).status ∈
      ["OK", "TIMEOUT", "FETCH_ERROR", "PARSING_ERROR", "INTERNAL_ERROR"] ∧
    ((processArticleMain charged_words env url).status ∈
      ["OK", "TIMEOUT", "FETCH_ERROR", "PARSING_ERROR"] ∨
     ∃ m : String,
       (processArticleMain charged_words env url).status = "ERROR: " ++ m) := by
  constructor
  · rcases processArticleServer_cases charged_words env url with
      ⟨sc, wc, h⟩ | ⟨e, h⟩
    · rw [h]; exact List.mem_cons_self _ _
    · rw [h]
      exact List.mem_cons_of_mem _ (statusOfServer_mem e)
  · rcases processArticleMain_cases charged_words env url with
      ⟨sc, h⟩ | ⟨e, h⟩
    · rw [h]; exact .inl (List.mem_cons_self _ _)
    · rw [h]
      rcases statusOfMain_mem e with hm | hm
      · exact .inl (List.mem_cons_of_mem _ hm)
      · exact .inr ⟨e.msg, hm⟩

/-- C2 counterexample: in `main.py`, an unexpected exception (here an
error from the sanitizer that is none of the named classes) produces
the status string `"ERROR: boom"`, which is outside the closed
five-value enumeration the claim asserts. -/
theorem status_outside_enumeration :
    (processArticleMain [] envBoom "http://u").status ∉
      ["OK", "TIMEOUT", "FETCH_ERROR", "PARSING_ERROR", "INTERNAL_ERROR"] := by
  decide

/-- C4: in both `server.py` and `main.py`, a fetch that exceeds
`FETCH_TIMEOUT` raises `asyncio.TimeoutError`, which the first `except`
handler turns into status TIMEOUT — never FETCH_ERROR. -/
theorem fetch_timeout_yields_TIMEOUT (charged_words : List String)
    (env : TaskEnv) (url : String) (h : FETCH_TIMEOUT < env.fetchDur) :
    ((processArticleServer charged_words env url).status = "TIMEOUT" ∧
     (processArticleServer charged_words env url).status ≠ "FETCH_ERROR") ∧
    ((processArticleMain charged_words env url).status = "TIMEOUT" ∧
     (processArticleMain charged_words env url).status ≠ "FETCH_ERROR") := by
  have hf : fetchStage env.fetchDur env.net = .error asyncioTimeout := by
    unfold fetchStage; rw [if_pos h]
  have hs : processArticleServer charged_words env url =
      classifyServer url asyncioTimeout := by
    simp only [processArticleServer, hf]
  have hm : processArticleMain charged_words env url =
      classifyMain url asyncioTimeout := by
    simp only [processArticleMain, hf]
  rw [hs, hm]
  refine ⟨⟨rfl, ?_⟩, ⟨rfl, ?_⟩⟩ <;>
    simp [classifyServer, classifyMain, mkErr, statusOfServer, statusOfMain,
      asyncioTimeout]

theorem fetch_timeout_yields_TIMEOUT_witness :
    FETCH_TIMEOUT < envSlowFetch.fetchDur ∧
    (processArticleServer [] envSlowFetch "u").status = "TIMEOUT" ∧
    (processArticleMain [] envSlowFetch "u").status = "TIMEOUT" :=
  ⟨by decide,
   (fetch_timeout_yields_TIMEOUT [] envSlowFetch "u" (by decide)).1.1,
   (fetch_timeout_yields_TIMEOUT [] envSlowFetch "u" (by decide)).2.1⟩

/-- C7: in both files, when the dispatched analysis exceeds
`ANALYZE_TIMEOUT` (and the earlier stages succeeded, so execution
reaches `asyncio.wait_for`), the task's status is TIMEOUT. -/
theorem analysis_timeout_yields_TIMEOUT (charged_words : List String)
    (env : TaskEnv) (url html clean_text : String)
    (hf : ¬ FETCH_TIMEOUT < env.fetchDur) (hn : env.net = .ok html)
    (hsan : env.san html = .ok clean_text)
    (ha : ANALYZE_TIMEOUT < env.analysisDur) :
    (processArticleServer charged_words env url).status = "TIMEOUT" ∧
    (processArticleMain charged_words env url).status = "TIMEOUT" := by
  have h1 : fetchStage env.fetchDur env.net = .ok html := by
    unfold fetchStage; rw [if_neg hf, hn]
  have h2 : ∀ (α : Type) (r : Except Exc α),
      wait_for env.analysisDur ANALYZE_TIMEOUT r = .error asyncioTimeout := by
    intro α r; unfold wait_for; rw [if_pos ha]
  have hs : processArticleServer charged_words env url =
      classifyServer url asyncioTimeout := by
    simp only [processArticleServer, h1, hsan, h2]
  have hm : processArticleMain charged_words env url =
      classifyMain url asyncioTimeout := by
    simp only [processArticleMain, h1, hsan, h2]
  rw [hs, hm]
  exact ⟨rfl, rfl⟩

theorem analysis_timeout_yields_TIMEOUT_witness :
    (¬ FETCH_TIMEOUT < envSlowAnalysis.fetchDur) ∧
    envSlowAnalysis.net = .ok "<p>x</p>" ∧
    envSlowAnalysis.san "<p>x</p>" = .ok "<p>x</p>" ∧
    ANALYZE_TIMEOUT < envSlowAnalysis.analysisDur ∧
    (processArticleServer [] envSlowAnalysis "u").status = "TIMEOUT" ∧
    (processArticleMain [] envSlowAnalysis "u").status = "TIMEOUT" :=
  ⟨by decide, rfl, rfl, by decide,
   (analysis_timeout_yields_TIMEOUT [] envSlowAnalysis "u" "<p>x</p>"
     "<p>x</p>" (by decide) rfl rfl (by decide)).1,
   (analysis_timeout_yields_TIMEOUT [] envSlowAnalysis "u" "<p>x</p>"
     "<p>x</p>" (by decide) rfl rfl (by decide)).2⟩

/-- C5 (amended): `score` and `words_count` are present iff the status
is OK, in both files; `duration` is present iff the status is OK in
`server.py`, while `main.py` never emits a `duration` key at all, OK or
not. -/
theorem optional_fields_iff_ok (charged_words : List String)
    (env : TaskEnv) (url : String) :
    (((processArticleServer charged_words env url).status = "OK" ↔
        (processArticleServer charged_words env url).score.isSome) ∧
     ((processArticleServer charged_words env url).status = "OK" ↔
        (processArticleServer charged_words env url).words_count.isSome) ∧
     ((processArticleServer charged_words env url).status = "OK" ↔
        (processArticleServer charged_words env url).duration.isSome)) ∧
    (((processArticleMain charged_words env url).status = "OK" ↔
        (processArticleMain charged_words env url).score.isSome) ∧
     ((processArticleMain charged_words env url).status = "OK" ↔
        (processArticleMain charged_words env url).words_count.isSome) ∧
     (processArticleMain charged_words env url).duration = none) := by
  constructor
  · rcases processArticleServer_cases charged_words env url with
      ⟨sc, wc, h⟩ | ⟨e, h⟩
    · rw [h]; simp
    · rw [h]
      simp [classifyServer, mkErr, statusOfServer_ne_ok e]
  · rcases processArticleMain_cases charged_words env url with
      ⟨sc, h⟩ | ⟨e, h⟩
    · rw [h]; simp
    · rw [h]
      simp [classifyMain, mkErr, statusOfMain_ne_ok e]

/-- C5 counterexample: a `main.py` task on which every stage succeeds
(the tokenizer returning the two-element bag its unpacking requires)
produces a Result with status OK and no `duration` key, refuting
"`duration` is present iff `status == OK`" for the CLI. -/
theorem ok_result_without_duration :
    (processArticleMain [] envTwoWords "u").status = "OK" ∧
    (processArticleMain [] envTwoWords "u").duration = none := by
  decide

/-- C6: every exception a stage raises is converted by the `except`
chain into the raising task's own Result (same url, a non-OK status),
in both files; and a task's entry in the gathered batch depends only on
its own url and its own outcome environment, so however the sibling
tasks fail, result `i` is unchanged as long as task `i`'s own outcome
is unchanged. -/
theorem failures_isolated (charged_words : List String)
    (envs envs2 : Nat → TaskEnv) (urls : List String) (i : Nat)
    (url : String) (e : Exc) (h : envs i = envs2 i) :
    (classifyServer url e).url = url ∧ statusOfServer e ≠ "OK" ∧
    (classifyMain url e).url = url ∧ statusOfMain e ≠ "OK" ∧
    (runBatchServer charged_words envs 0 urls).get? i =
      (runBatchServer charged_words envs2 0 urls).get? i ∧
    (runBatchMain charged_words envs 0 urls).get? i =
      (runBatchMain charged_words envs2 0 urls).get? i := by
  refine ⟨rfl, statusOfServer_ne_ok e, rfl, statusOfMain_ne_ok e, ?_, ?_⟩
  · rw [runBatchServer_get?, runBatchServer_get?, Nat.zero_add, h]
  · rw [runBatchMain_get?, runBatchMain_get?, Nat.zero_add, h]

theorem failures_isolated_witness :
    ((fun _ : Nat => sampleEnv) 0 = (fun _ : Nat => sampleEnv) 0) ∧
    ((classifyServer "u" boomExc).url = "u" ∧
      statusOfServer boomExc ≠ "OK" ∧
      (classifyMain "u" boomExc).url = "u" ∧
      statusOfMain boomExc ≠ "OK" ∧
      (runBatchServer [] (fun _ => sampleEnv) 0 ["u"]).get? 0 =
        (runBatchServer [] (fun _ => sampleEnv) 0 ["u"]).get? 0 ∧
      (runBatchMain [] (fun _ => sampleEnv) 0 ["u"]).get? 0 =
        (runBatchMain [] (fun _ => sampleEnv) 0 ["u"]).get? 0) :=
  ⟨rfl, failures_isolated [] (fun _ => sampleEnv) (fun _ => sampleEnv)
    ["u"] 0 "u" boomExc rfl⟩

theorem calculate_jaundice_rate_bounds (ws charged_words : List String) :
    0 ≤ calculate_jaundice_rate ws charged_words ∧
    calculate_jaundice_rate ws charged_words ≤ 100 := by
  unfold calculate_jaundice_rate
  split
  · norm_num
  · rename_i hlen
    have hn : 0 < (ws.length : ℚ) := by
      exact_mod_cast Nat.pos_of_ne_zero hlen
    have hc0 : 0 ≤ (ws.countP (fun w => charged_words.contains w) : ℚ) := by
      positivity
    have hc : (ws.countP (fun w => charged_words.contains w) : ℚ) ≤
        (ws.length : ℚ) := by
      exact_mod_cast List.countP_le_length _
    have hdiv : (ws.countP (fun w => charged_words.contains w) : ℚ) /
        (ws.length : ℚ) ≤ 1 := (div_le_one hn).mpr hc
    constructor
    · positivity
    · calc 100 * ((ws.countP (fun w => charged_words.contains w) : ℚ) /
            (ws.length : ℚ)) ≤ 100 * 1 := by
            exact mul_le_mul_of_nonneg_left hdiv (by norm_num)
        _ = 100 := by norm_num

/-- Environment realizing the spec's scenario: tokenizer output
`[this, is, bad, bad, good]`. -/
def envFiveWords : TaskEnv :=
  { fetchDur := 1, net := .ok "<p>this is bad bad good</p>",
    san := fun s => .ok s, analysisDur := 1,
    tokenizerWords := .ok ["this", "is", "bad", "bad", "good"],
    analysisWall := 1 }

/-- C8: when all stages of a `server.py` task succeed with tokenized
word bag `ws`, the Result is OK and carries
`calculate_jaundice_rate(ws, charged_words)` — which always lies in
[0, 100] — and the non-negative word count `len(ws)`; for the empty
bag the score is 0, the count is 0, and the status is still OK. -/
theorem analysis_score_in_range (charged_words ws : List String)
    (env : TaskEnv) (url html clean_text : String)
    (hf : ¬ FETCH_TIMEOUT < env.fetchDur) (hn : env.net = .ok html)
    (hsan : env.san html = .ok clean_text)
    (ha : ¬ ANALYZE_TIMEOUT < env.analysisDur)
    (hw : env.tokenizerWords = .ok ws) :
    (processArticleServer charged_words env url).status = "OK" ∧
    (processArticleServer charged_words env url).score =
      some (calculate_jaundice_rate ws charged_words) ∧
    (processArticleServer charged_words env url).words_count =
      some ws.length ∧
    0 ≤ calculate_jaundice_rate ws charged_words ∧
    calculate_jaundice_rate ws charged_words ≤ 100 ∧
    (ws = [] →
      calculate_jaundice_rate ws charged_words = 0 ∧ ws.length = 0) := by
  have h1 : fetchStage env.fetchDur env.net = .ok html := by
    unfold fetchStage; rw [if_neg hf, hn]
  have h2 : wait_for env.analysisDur ANALYZE_TIMEOUT
      ((env.tokenizerWords).map (analyze_text_task charged_words)) =
      .ok (analyze_text_task charged_words ws) := by
    unfold wait_for; rw [if_neg ha, hw]; rfl
  have hres : processArticleServer charged_words env url =
      { url := url, status := "OK",
        score := some (calculate_jaundice_rate ws charged_words),
        words_count := some ws.length,
        duration := some (round4 env.analysisWall) } := by
    simp only [processArticleServer, h1, hsan, h2, analyze_text_task]
  rw [hres]
  refine ⟨rfl, rfl, rfl, (calculate_jaundice_rate_bounds ws charged_words).1,
    (calculate_jaundice_rate_bounds ws charged_words).2, fun hempty => ?_⟩
  subst hempty
  exact ⟨rfl, rfl⟩

theorem analysis_score_in_range_witness :
    (¬ FETCH_TIMEOUT < envFiveWords.fetchDur) ∧
    envFiveWords.net = .ok "<p>this is bad bad good</p>" ∧
    envFiveWords.san "<p>this is bad bad good</p>" =
      .ok "<p>this is bad bad good</p>" ∧
    (¬ ANALYZE_TIMEOUT < envFiveWords.analysisDur) ∧
    envFiveWords.tokenizerWords =
      .ok ["this", "is", "bad", "bad", "good"] ∧
    (processArticleServer ["bad"] envFiveWords "u").status = "OK" ∧
    (processArticleServer ["bad"] envFiveWords "u").score = some 40 ∧
    (processArticleServer ["bad"] envFiveWords "u").words_count = some 5 :=
  ⟨by decide, rfl, rfl, by decide, rfl,
   (analysis_score_in_range ["bad"] ["this", "is", "bad", "bad", "good"]
     envFiveWords "u" "<p>this is bad bad good</p>"
     "<p>this is bad bad good</p>" (by decide) rfl rfl (by decide) rfl).1,
   ((analysis_score_in_range ["bad"] ["this", "is", "bad", "bad", "good"]
     envFiveWords "u" "<p>this is bad bad good</p>"
     "<p>this is bad bad good</p>" (by decide) rfl rfl (by decide)
     rfl).2.1).trans
     (by
       have hc : List.countP (fun w => (["bad"] : List String).contains w)
           ["this", "is", "bad", "bad", "good"] = 2 := rfl
       simp only [calculate_jaundice_rate, hc, List.length_cons,
         List.length_nil]
       norm_num),
   (analysis_score_in_range ["bad"] ["this", "is", "bad", "bad", "good"]
     envFiveWords "u" "<p>this is bad bad good</p>"
     "<p>this is bad bad good</p>" (by decide) rfl rfl (by decide)
     rfl).2.2.1⟩

/-- C9: `analyze_handler` answers HTTP 400 — running no task — when
the parsed `urls` parameter yields no urls or more than `MAX_URLS` of
them; otherwise it gathers one `process_article` Result per parsed
url. -/
theorem handler_validates_url_count (charged_words : List String)
    (envs : Nat → TaskEnv) (urls_param : String) :
    (parseUrls urls_param = [] →
      analyze_handler charged_words envs urls_param =
        .clientError 400 "No URLs provided") ∧
    (MAX_URLS < (parseUrls urls_param).length →
      analyze_handler charged_words envs urls_param =
        .clientError 400 ("Max " ++ toString MAX_URLS ++ " URLs allowed")) ∧
    (parseUrls urls_param ≠ [] →
      ¬ MAX_URLS < (parseUrls urls_param).length →
      analyze_handler charged_words envs urls_param =
        .jsonResults
          (runBatchServer charged_words envs 0 (parseUrls urls_param)) ∧
      (runBatchServer charged_words envs 0 (parseUrls urls_param)).length =
        (parseUrls urls_param).length) := by
  refine ⟨fun h0 => ?_, fun hgt => ?_, fun hne hle => ?_⟩
  · simp only [analyze_handler]
    rw [if_pos h0]
  · have hne : parseUrls urls_param ≠ [] := by
      intro h0
      rw [h0] at hgt
      simp [MAX_URLS] at hgt
    simp only [analyze_handler]
    rw [if_neg hne, if_pos hgt]
  · simp only [analyze_handler]
    rw [if_neg hne, if_neg hle]
    exact ⟨rfl, runBatchServer_length _ _ _ 0⟩

theorem handler_validates_url_count_witness :
    (parseUrls "" = [] ∧
      analyze_handler [] (fun _ => sampleEnv) "" =
        .clientError 400 "No URLs provided") ∧
    (MAX_URLS < (parseUrls "a,b,c,d,e,f,g,h,i,j,k").length ∧
      analyze_handler [] (fun _ => sampleEnv) "a,b,c,d,e,f,g,h,i,j,k" =
        .clientError 400 ("Max " ++ toString MAX_URLS ++ " URLs allowed")) ∧
    (parseUrls "a,b" ≠ [] ∧
      analyze_handler [] (fun _ => sampleEnv) "a,b" =
        .jsonResults
          (runBatchServer [] (fun _ => sampleEnv) 0 (parseUrls "a,b"))) :=
  ⟨⟨by decide,
    (handler_validates_url_count [] (fun _ => sampleEnv) "").1 (by decide)⟩,
   ⟨by decide,
    (handler_validates_url_count [] (fun _ => sampleEnv)
      "a,b,c,d,e,f,g,h,i,j,k").2.1 (by decide)⟩,
   ⟨by decide,
    ((handler_validates_url_count [] (fun _ => sampleEnv) "a,b").2.2
      (by decide) (by decide)).1⟩⟩

/-- An `aiohttp.ClientError` that is not a timeout (connection or DNS
failure, or `raise_for_status` on a non-2xx response). -/
def clientExc : Exc :=
  { isTimeoutError := false, isClientError := true,
    isArticleNotFound := false, msg := "connection refused" }

/-- C10: in `server.py`'s handler chain, every exception that is an
instance of `asyncio.TimeoutError` is already captured by the first
handler as TIMEOUT, so the `asyncio.exceptions.TimeoutError` (the same
class) alternative of the FETCH_ERROR handler can never fire:
FETCH_ERROR arises exactly from an `aiohttp.ClientError` that is not a
`TimeoutError`. -/
theorem fetch_error_timeout_alternative_dead (url : String) (e : Exc) :
    (e.isTimeoutError = true →
      classifyServer url e = mkErr url "TIMEOUT") ∧
    ((classifyServer url e).status = "FETCH_ERROR" →
      e.isClientError = true ∧ e.isTimeoutError = false) := by
  obtain ⟨t, c, a, m⟩ := e
  constructor
  · intro ht
    subst ht
    simp [classifyServer, statusOfServer]
  · intro hs
    cases t <;> cases c <;> cases a <;>
      simp_all [classifyServer, statusOfServer, mkErr]

theorem fetch_error_timeout_alternative_dead_witness :
    (asyncioTimeout.isTimeoutError = true ∧
      classifyServer "u" asyncioTimeout = mkErr "u" "TIMEOUT") ∧
    ((classifyServer "u" clientExc).status = "FETCH_ERROR" ∧
      clientExc.isClientError = true ∧ clientExc.isTimeoutError = false) :=
  ⟨⟨rfl, (fetch_error_timeout_alternative_dead "u" asyncioTimeout).1 rfl⟩,
   ⟨rfl, (fetch_error_timeout_alternative_dead "u" clientExc).2 rfl⟩⟩

theorem countFetching_set (ts : List Phase) : ∀ (i : Nat) (a b : Phase),
    ts.get? i = some a →
    countFetching (ts.set i b) + (if isFetching a then 1 else 0) =
      countFetching ts + (if isFetching b then 1 else 0) := by
  induction ts with
  | nil => intro i a b h; simp [List.get?] at h
  | cons p rest ih =>
    intro i a b h
    cases i with
    | zero =>
      simp only [List.get?] at h
      injection h with h
      subst h
      cases hp : isFetching p <;> cases hb : isFetching b <;>
        simp [List.set, countFetching, List.countP_cons, hp, hb]
    | succ i =>
      simp only [List.get?] at h
      have hrec := ih i a b h
      cases ha : isFetching a <;> cases hb : isFetching b <;>
        cases hp : isFetching p <;>
        simp [List.set, countFetching, List.countP_cons, ha, hb, hp]
          at hrec ⊢ <;>
        omega

theorem countFetching_replicate_pending (k : Nat) :
    countFetching (List.replicate k Phase.pending) = 0 := by
  induction k with
  | zero => rfl
  | succ k ih =>
    simp [List.replicate_succ, countFetching, List.countP_cons,
      isFetching, ih]

theorem serverStep_preserves {s t : List Phase × Nat}
    (hst : ServerStep s t)
    (h : countFetching s.1 + s.2 = CONCURRENCY_CAP) :
    countFetching t.1 + t.2 = CONCURRENCY_CAP := by
  cases hst with
  | acquire ts n i hi =>
    have hc := countFetching_set ts i Phase.pending Phase.fetching hi
    simp [isFetching] at hc
    simp at h ⊢
    omega
  | finish ts n i hi =>
    have hc := countFetching_set ts i Phase.fetching Phase.done hi
    simp [isFetching] at hc
    simp at h ⊢
    omega

/-- C3 (amended): in every reachable state of a `server.py` batch, the
tasks inside their fetch and the free semaphore slots always add up to
`CONCURRENCY_CAP` — each fetching task holds exactly one slot, acquired
before the fetch began and returned exactly once on exit — so at most
10 Article Tasks are ever simultaneously fetching.  (The CLI in
`main.py` has no such bound; see the counterexample.) -/
theorem server_concurrent_fetches_bounded (k : Nat)
    (s : List Phase × Nat)
    (h : Relation.ReflTransGen ServerStep (serverInit k) s) :
    countFetching s.1 + s.2 = CONCURRENCY_CAP ∧
    countFetching s.1 ≤ CONCURRENCY_CAP := by
  have hinv : countFetching s.1 + s.2 = CONCURRENCY_CAP := by
    induction h with
    | refl => simp [serverInit, countFetching_replicate_pending]
    | tail hsteps hstep ih => exact serverStep_preserves hstep ih
  exact ⟨hinv, by omega⟩

theorem server_concurrent_fetches_bounded_witness :
    Relation.ReflTransGen ServerStep (serverInit 3)
      ([Phase.fetching, Phase.pending, Phase.pending], 9) ∧
    countFetching [Phase.fetching, Phase.pending, Phase.pending] + 9 =
      CONCURRENCY_CAP ∧
    countFetching [Phase.fetching, Phase.pending, Phase.pending] ≤
      CONCURRENCY_CAP := by
  have hstep : Relation.ReflTransGen ServerStep (serverInit 3)
      ([Phase.fetching, Phase.pending, Phase.pending], 9) := by
    refine Relation.ReflTransGen.single ?_
    exact ServerStep.acquire
      [Phase.pending, Phase.pending, Phase.pending] 9 0 (by decide)
  exact ⟨hstep,
    (server_concurrent_fetches_bounded 3 _ hstep).1,
    (server_concurrent_fetches_bounded 3 _ hstep).2⟩

theorem get?_append_length (l l' : List Phase) (a : Phase) :
    (l ++ a :: l').get? l.length = some a := by
  induction l with
  | nil => rfl
  | cons x xs ih => exact ih

theorem set_append_length (l l' : List Phase) (a b : Phase) :
    (l ++ a :: l').set l.length b = l ++ b :: l' := by
  induction l with
  | nil => rfl
  | cons x xs ih => simp [List.length_cons, List.set, ih]

theorem cli_all_fetching : ∀ (k : Nat) (acc : List Phase),
    Relation.ReflTransGen CliStep
      (acc ++ List.replicate k Phase.pending)
      (acc ++ List.replicate k Phase.fetching) := by
  intro k
  induction k with
  | zero =>
    intro acc
    simpa using
      (Relation.ReflTransGen.refl : Relation.ReflTransGen CliStep acc acc)
  | succ k ih =>
    intro acc
    have hstep : CliStep
        (acc ++ Phase.pending :: List.replicate k Phase.pending)
        (acc ++ Phase.fetching :: List.replicate k Phase.pending) := by
      have h1 := CliStep.startFetch
        (acc ++ Phase.pending :: List.replicate k Phase.pending) acc.length
        (get?_append_length acc _ _)
      rwa [set_append_length] at h1
    have hrest := ih (acc ++ [Phase.fetching])
    rw [List.append_assoc] at hrest
    rw [List.replicate_succ, List.replicate_succ]
    exact Relation.ReflTransGen.head hstep (by simpa using hrest)

/-- C3 counterexample: a `main.py` batch of 11 urls can reach a state
in which all 11 tasks are simultaneously in their fetch — the CLI's
`fetch` acquires no admission slot (`CONCURRENCY_LIMIT` exists only in
`server.py`), so the claimed bound of 10 concurrent fetches for "every
batch" is violated. -/
theorem cli_exceeds_admission_cap :
    Relation.ReflTransGen CliStep (cliInit 11)
      (List.replicate 11 Phase.fetching) ∧
    CONCURRENCY_CAP < countFetching (List.replicate 11 Phase.fetching) := by
  constructor
  · simpa using cli_all_fetching 11 []
  · decide
